import Mathlib

/-!
Verification of the conversation-state (History Manager) component of the
openai-manager repository, against its two storage backends:

* `src/openai_manager.py` — flat-JSON backend: history is a JSON array in
  the file `chat_history/chat_log{suffix}`;
* `src/openai_manager_sqlite.py` — relational backend: history is a table
  `history(id INTEGER PRIMARY KEY AUTOINCREMENT, role, content)`.

The remote completion/speech/transcription calls are opaque external
collaborators; each call's outcome is passed in as an explicit parameter
(`ProviderOutcome` / `PyResult`), and file/database write success is a
Boolean parameter, so that every observable control path of the Python
code is represented.
-/

set_option linter.unusedVariables false

/-- Role of a chat message (the `role` key of a message dict). -/
inductive Role where
  | system
  | user
  | assistant
deriving DecidableEq, Repr

/-- A chat message: `{"role": ..., "content": ...}`. -/
structure Msg where
  role : Role
  content : String
deriving DecidableEq, Repr

/-- The on-disk state of the flat-JSON backend's `chat_history/chat_log` file:
missing, present but not valid JSON (`json.decoder.JSONDecodeError` path of
`get_history`), or a stored JSON array of messages. -/
inductive JsonDisk where
  | absent
  | malformed
  | stored (msgs : List Msg)
deriving DecidableEq, Repr

/-- State of a flat-JSON-backend manager: the log file, the in-memory
`self.history` list, and the system message `self.smsg`. -/
structure JsonState where
  disk : JsonDisk
  mem : List Msg
  smsg : String
deriving DecidableEq, Repr

/-- State of a relational-backend manager: the rows of the `history` table in
`id` order (each row's role and content), the in-memory `self.history` list,
and the system message `self.smsg`. -/
structure SqlState where
  table : List Msg
  mem : List Msg
  smsg : String
deriving DecidableEq, Repr

/-- Python exceptions that the modelled control paths can raise. -/
inductive PyErr where
  | nameError
  | typeError
  | apiError
  | dbError
deriving DecidableEq, Repr

/-- Outcome of one `openai.chat.completions.create` call: the call raised, or
it returned a completion whose `choices[0].message.content` is `None` or a
string. -/
inductive ProviderOutcome where
  | content (c : Option String)
  | raise (e : PyErr)
deriving DecidableEq, Repr

/-- Result of a Python call that normally returns a string: a returned value,
or a propagated exception. -/
inductive PyResult where
  | ok (s : String)
  | exn (e : PyErr)
deriving DecidableEq, Repr

/-- `OpenaiManager.get_history` of `src/openai_manager.py` (lines 53-68): if
the log file exists and parses, `self.history` becomes the parsed array and
the system message is inserted at index 0 of `self.history` itself
(`self.history.insert(0, {"role": "system", "content": self.smsg})`); on a
JSON decode error it returns `False` leaving `self.history` as it was; if the
file is missing, `self.history` becomes the empty list (no system message). -/
def json_get_history (st : JsonState) : Bool × JsonState :=
  match st.disk with
  | JsonDisk.stored l =>
      (true, JsonState.mk (JsonDisk.stored l) (Msg.mk Role.system st.smsg :: l) st.smsg)
  | JsonDisk.malformed => (false, st)
  | JsonDisk.absent => (true, JsonState.mk JsonDisk.absent [] st.smsg)

/-- `OpenaiManager.clear_history` of `src/openai_manager.py` (lines 126-134):
removes the log file if it exists (returning `True`), otherwise returns
`False`; the in-memory `self.history` is not touched. -/
def json_clear_history (st : JsonState) : Bool × JsonState :=
  match st.disk with
  | JsonDisk.absent => (false, st)
  | _ => (true, JsonState.mk JsonDisk.absent st.mem st.smsg)

/-- The message list sent to the provider by `chat` (line 85 of
`src/openai_manager.py`, line 102 of the sqlite version):
`[{"role": "system", "content": system}] + history + [{"role": "user", "content": msg}]`. -/
def json_request (st : JsonState) (system msg : String) : List Msg :=
  Msg.mk Role.system system :: st.mem ++ [Msg.mk Role.user msg]

/-- `OpenaiManager.chat` of `src/openai_manager.py` (lines 70-124) exactly as
written: the empty-message guard returns `""`; for any non-empty message,
line 75 `if smsg == "":` reads the name `smsg`, but the parameter is spelled
`smgs` (line 70) and no local or global `smsg` exists, so a `NameError`
propagates before the provider is called and before any state change. -/
def json_chat (st : JsonState) (msg : String) (provider : ProviderOutcome) :
    PyResult × JsonState :=
  if msg = "" then (PyResult.ok "", st)
  else (PyResult.exn PyErr.nameError, st)

/-- `OpenaiManager.chat` of `src/openai_manager.py` (lines 70-124) with the
`smgs`/`smsg` parameter-name slip of line 70 read as `smsg` (the spelling the
body uses, and the spelling of the sqlite version), so that the body below
the guard is reachable; the override parameter is left at its default `""`.
Faithful to lines 81-124: provider exceptions are caught and `""` returned
(lines 97-106); a `None` content makes line 109 `len(None)` raise `TypeError`
(uncaught) before any state change; otherwise, unless `amnesia`, the user
message and assistant reply are appended to `self.history` and the whole of
`self.history` is dumped to the log file, a write failure being caught and
logged (lines 111-123). -/
def json_chat_fixed (st : JsonState) (msg : String) (amnesia : Bool)
    (provider : ProviderOutcome) (writeOk : Bool) : PyResult × JsonState :=
  if msg = "" then (PyResult.ok "", st)
  else
    match provider with
    | ProviderOutcome.raise _ => (PyResult.ok "", st)
    | ProviderOutcome.content none => (PyResult.exn PyErr.typeError, st)
    | ProviderOutcome.content (some c) =>
        if amnesia then (PyResult.ok c, st)
        else
          if writeOk then
            (PyResult.ok c, JsonState.mk
              (JsonDisk.stored (st.mem ++ [Msg.mk Role.user msg, Msg.mk Role.assistant c]))
              (st.mem ++ [Msg.mk Role.user msg, Msg.mk Role.assistant c]) st.smsg)
          else
            (PyResult.ok c, JsonState.mk st.disk
              (st.mem ++ [Msg.mk Role.user msg, Msg.mk Role.assistant c]) st.smsg)

/-- `OpenaiManager.get_history` of `src/openai_manager_sqlite.py` (lines
73-80): `self.history` becomes the `(role, content)` rows of the `history`
table in `SELECT` (id) order; no system message is added; always `True`. -/
def sql_get_history (st : SqlState) : Bool × SqlState :=
  (true, SqlState.mk st.table st.table st.smsg)

/-- `OpenaiManager.clear_history` of `src/openai_manager_sqlite.py` (lines
151-156): `DELETE FROM history`, returning `True`; `self.history` untouched. -/
def sql_clear_history (st : SqlState) : Bool × SqlState :=
  (true, SqlState.mk [] st.mem st.smsg)

/-- `OpenaiManager.chat` of `src/openai_manager_sqlite.py` (lines 82-149):
empty-message guard returns `""`; provider exceptions are caught and `""`
returned (lines 114-126); a `None` or `""` completion content returns `""`
with no state change (lines 128-134); otherwise, unless `amnesia`, the user
message and assistant reply are appended to `self.history` and inserted as
two rows committed together (lines 139-147) — a database failure there
(`dbOk = false`) propagates uncommitted, leaving the table unchanged but the
in-memory list already grown. -/
def sql_chat (st : SqlState) (msg : String) (amnesia : Bool)
    (provider : ProviderOutcome) (dbOk : Bool) : PyResult × SqlState :=
  if msg = "" then (PyResult.ok "", st)
  else
    match provider with
    | ProviderOutcome.raise _ => (PyResult.ok "", st)
    | ProviderOutcome.content none => (PyResult.ok "", st)
    | ProviderOutcome.content (some c) =>
        if c = "" then (PyResult.ok "", st)
        else if amnesia then (PyResult.ok c, st)
        else
          if dbOk then
            (PyResult.ok c, SqlState.mk
              (st.table ++ [Msg.mk Role.user msg, Msg.mk Role.assistant c])
              (st.mem ++ [Msg.mk Role.user msg, Msg.mk Role.assistant c]) st.smsg)
          else
            (PyResult.exn PyErr.dbError, SqlState.mk st.table
              (st.mem ++ [Msg.mk Role.user msg, Msg.mk Role.assistant c]) st.smsg)

/-- `OpenaiManager.transcribe` of `src/openai_manager_sqlite.py` (lines
195-209): a missing file returns `""`; otherwise the outcome of the
`openai.audio.transcriptions.create` call is returned as-is — the call is not
inside any `try`, so a provider exception propagates to the caller. -/
def sql_transcribe (fileExists : Bool) (provider : PyResult) : PyResult :=
  if fileExists then provider else PyResult.ok ""

/-- `OpenaiManager.speak` of `src/openai_manager.py` (lines 136-168): a blank
message returns `False`; the `openai.audio.speech.create` call is not inside
any `try`, so a provider exception (`providerErr = some e`) propagates;
otherwise `True` is returned (the ffmpeg normalisation step has its own
`try/except` and cannot change the return value). -/
def json_speak (msg : String) (providerErr : Option PyErr) : Sum PyErr Bool :=
  if msg = "" then Sum.inr false
  else
    match providerErr with
    | some e => Sum.inl e
    | none => Sum.inr true

/-- One History-Manager operation: a `chat` call (with the provider's outcome
and the write/commit success passed in), a `get_history` load, or a
`clear_history`. -/
inductive MgrOp where
  | chat (msg : String) (amnesia : Bool) (provider : ProviderOutcome) (ioOk : Bool)
  | load
  | clear
deriving Repr

/-- State transition of the flat-JSON backend under one operation (`chat`
taken with the `smgs`/`smsg` slip resolved, as `json_chat_fixed`). -/
def stepJson (st : JsonState) (op : MgrOp) : JsonState :=
  match op with
  | MgrOp.chat m a p w => (json_chat_fixed st m a p w).2
  | MgrOp.load => (json_get_history st).2
  | MgrOp.clear => (json_clear_history st).2

/-- State transition of the relational backend under one operation. -/
def stepSql (st : SqlState) (op : MgrOp) : SqlState :=
  match op with
  | MgrOp.chat m a p d => (sql_chat st m a p d).2
  | MgrOp.load => (sql_get_history st).2
  | MgrOp.clear => (sql_clear_history st).2

/-- The empty flat-JSON state: no log file, empty in-memory history, system
message `s`. -/
def initJson (s : String) : JsonState := JsonState.mk JsonDisk.absent [] s

/-- The empty relational state: empty `history` table, empty in-memory
history, system message `s`. -/
def initSql (s : String) : SqlState := SqlState.mk [] [] s

/-- Run a sequence of operations on the flat-JSON backend from the empty
state. -/
def runJson (s : String) (ops : List MgrOp) : JsonState :=
  ops.foldl stepJson (initJson s)

/-- Run a sequence of operations on the relational backend from the empty
state. -/
def runSql (s : String) (ops : List MgrOp) : SqlState :=
  ops.foldl stepSql (initSql s)

/-- A message list is a sequence of complete turns: user message then
assistant reply, repeated. -/
def isTurns : List Msg → Bool
  | [] => true
  | Msg.mk Role.user _ :: Msg.mk Role.assistant _ :: rest => isTurns rest
  | _ => false

/-- A message list is some leading system messages followed by complete
turns. -/
def sysThenTurns : List Msg → Bool
  | Msg.mk Role.system _ :: rest => sysThenTurns rest
  | l => isTurns l

/-- The flat-JSON log file, when present, holds leading system messages
followed by complete turns. -/
def diskTurnsOk : JsonDisk → Bool
  | JsonDisk.stored l => sysThenTurns l
  | _ => true

/-- The message list of a sequence of turns: for each `(m, c)` a user message
`m` followed by an assistant reply `c`. -/
def flattenTurns : List (String × String) → List Msg
  | [] => []
  | (m, c) :: ts => Msg.mk Role.user m :: Msg.mk Role.assistant c :: flattenTurns ts

/-- The operation sequence of successful, non-amnesia chat turns `ts`. -/
def chatOps (ts : List (String × String)) : List MgrOp :=
  ts.map (fun p => MgrOp.chat p.1 false (ProviderOutcome.content (some p.2)) true)

/-- Every turn of the list has a non-empty user message and a non-empty
assistant reply. -/
def goodTurns : List (String × String) → Bool
  | [] => true
  | (m, c) :: ts => if m = "" then false else if c = "" then false else goodTurns ts

/-- The `history` table holds exactly the rows of some sequence of turns. -/
def tableShape (l : List Msg) : Prop := ∃ ts, l = flattenTurns ts

/-- The list is some copies of the system message (content `s`) followed by
the rows of some sequence of turns. -/
def memShape (s : String) (l : List Msg) : Prop :=
  ∃ k ts, l = List.replicate k (Msg.mk Role.system s) ++ flattenTurns ts

/-- Reachability invariant of the flat-JSON backend: the in-memory history
and any stored log file are system-message copies followed by complete
turns, and the system message is unchanged. -/
def jsonInv (s : String) (st : JsonState) : Prop :=
  memShape s st.mem ∧ (∀ l, st.disk = JsonDisk.stored l → memShape s l) ∧ st.smsg = s

theorem flattenTurns_append (ts us : List (String × String)) :
    flattenTurns (ts ++ us) = flattenTurns ts ++ flattenTurns us := by
  induction ts with
  | nil => rfl
  | cons t ts ih => obtain ⟨m, c⟩ := t; simp [flattenTurns, ih]

theorem isTurns_flattenTurns (ts : List (String × String)) :
    isTurns (flattenTurns ts) = true := by
  induction ts with
  | nil => rfl
  | cons t ts ih => obtain ⟨m, c⟩ := t; simpa [flattenTurns, isTurns] using ih

theorem sysThenTurns_flattenTurns (ts : List (String × String)) :
    sysThenTurns (flattenTurns ts) = true := by
  cases ts with
  | nil => rfl
  | cons t ts =>
      obtain ⟨m, c⟩ := t
      simpa [flattenTurns, sysThenTurns, isTurns] using isTurns_flattenTurns ts

theorem sysThenTurns_shape (s : String) (k : Nat) (ts : List (String × String)) :
    sysThenTurns (List.replicate k (Msg.mk Role.system s) ++ flattenTurns ts) = true := by
  induction k with
  | zero => simpa using sysThenTurns_flattenTurns ts
  | succ k ih => simpa [List.replicate_succ, sysThenTurns] using ih

theorem tableShape_nil : tableShape [] := ⟨[], rfl⟩

theorem tableShape_append (l : List Msg) (m c : String) (h : tableShape l) :
    tableShape (l ++ [Msg.mk Role.user m, Msg.mk Role.assistant c]) := by
  obtain ⟨ts, rfl⟩ := h
  exact ⟨ts ++ [(m, c)], by simp [flattenTurns_append, flattenTurns]⟩

theorem tableShape_isTurns (l : List Msg) (h : tableShape l) : isTurns l = true := by
  obtain ⟨ts, rfl⟩ := h
  exact isTurns_flattenTurns ts

theorem memShape_nil (s : String) : memShape s [] := ⟨0, [], rfl⟩

theorem memShape_append (s : String) (l : List Msg) (m c : String) (h : memShape s l) :
    memShape s (l ++ [Msg.mk Role.user m, Msg.mk Role.assistant c]) := by
  obtain ⟨k, ts, rfl⟩ := h
  exact ⟨k, ts ++ [(m, c)], by simp [flattenTurns_append, flattenTurns]⟩

theorem memShape_cons_sys (s : String) (l : List Msg) (h : memShape s l) :
    memShape s (Msg.mk Role.system s :: l) := by
  obtain ⟨k, ts, rfl⟩ := h
  exact ⟨k + 1, ts, by simp [List.replicate_succ]⟩

theorem memShape_sysThenTurns (s : String) (l : List Msg) (h : memShape s l) :
    sysThenTurns l = true := by
  obtain ⟨k, ts, rfl⟩ := h
  exact sysThenTurns_shape s k ts

theorem sql_chat_table_cases (st : SqlState) (m : String) (a : Bool)
    (p : ProviderOutcome) (d : Bool) :
    (sql_chat st m a p d).2.table = st.table
    ∨ ∃ c, p = ProviderOutcome.content (some c)
        ∧ (sql_chat st m a p d).2.table
            = st.table ++ [Msg.mk Role.user m, Msg.mk Role.assistant c] := by
  unfold sql_chat
  by_cases hm : m = ""
  · left; simp [hm]
  · cases p with
    | raise e => left; simp [hm]
    | content c =>
        cases c with
        | none => left; simp [hm]
        | some c =>
            by_cases hc : c = ""
            · left; simp [hm, hc]
            · cases a with
              | false =>
                  cases d with
                  | false => left; simp [hm, hc]
                  | true => right; exact ⟨c, rfl, by simp [hm, hc]⟩
              | true => left; simp [hm, hc]

theorem json_chat_fixed_state_cases (st : JsonState) (m : String) (a : Bool)
    (p : ProviderOutcome) (w : Bool) :
    (json_chat_fixed st m a p w).2 = st
    ∨ ∃ c, p = ProviderOutcome.content (some c)
        ∧ ((json_chat_fixed st m a p w).2
              = JsonState.mk
                  (JsonDisk.stored (st.mem ++ [Msg.mk Role.user m, Msg.mk Role.assistant c]))
                  (st.mem ++ [Msg.mk Role.user m, Msg.mk Role.assistant c]) st.smsg
          ∨ (json_chat_fixed st m a p w).2
              = JsonState.mk st.disk
                  (st.mem ++ [Msg.mk Role.user m, Msg.mk Role.assistant c]) st.smsg) := by
  unfold json_chat_fixed
  by_cases hm : m = ""
  · left; simp [hm]
  · cases p with
    | raise e => left; simp [hm]
    | content c =>
        cases c with
        | none => left; simp [hm]
        | some c =>
            cases a with
            | false =>
                cases w with
                | false => right; exact ⟨c, rfl, Or.inr (by simp [hm])⟩
                | true => right; exact ⟨c, rfl, Or.inl (by simp [hm])⟩
            | true => left; simp [hm]

theorem stepSql_tableShape (st : SqlState) (op : MgrOp) (h : tableShape st.table) :
    tableShape (stepSql st op).table := by
  cases op with
  | load => exact h
  | clear => exact tableShape_nil
  | chat m a p d =>
      rcases sql_chat_table_cases st m a p d with heq | ⟨c, _, heq⟩
      · show tableShape (sql_chat st m a p d).2.table
        rw [heq]; exact h
      · show tableShape (sql_chat st m a p d).2.table
        rw [heq]; exact tableShape_append _ _ _ h

theorem stepJson_inv (s : String) (st : JsonState) (op : MgrOp) (h : jsonInv s st) :
    jsonInv s (stepJson st op) := by
  obtain ⟨hmem, hdisk, hs⟩ := h
  cases op with
  | load =>
      show jsonInv s (json_get_history st).2
      obtain ⟨d, mem, sm⟩ := st
      simp only at hmem hdisk hs
      cases d with
      | stored l =>
          refine ⟨?_, ?_, hs⟩
          · simp only [json_get_history]
            rw [hs]
            exact memShape_cons_sys s l (hdisk l rfl)
          · intro l' hl'
            simp only [json_get_history] at hl'
            exact hdisk l' hl'
      | malformed => exact ⟨hmem, hdisk, hs⟩
      | absent =>
          refine ⟨memShape_nil s, ?_, hs⟩
          intro l' hl'
          simp [json_get_history] at hl'
  | clear =>
      show jsonInv s (json_clear_history st).2
      obtain ⟨d, mem, sm⟩ := st
      simp only at hmem hdisk hs
      cases d with
      | stored l =>
          refine ⟨hmem, ?_, hs⟩
          intro l' hl'
          simp [json_clear_history] at hl'
      | malformed =>
          refine ⟨hmem, ?_, hs⟩
          intro l' hl'
          simp [json_clear_history] at hl'
      | absent => exact ⟨hmem, hdisk, hs⟩
  | chat m a p w =>
      show jsonInv s (json_chat_fixed st m a p w).2
      rcases json_chat_fixed_state_cases st m a p w with heq | ⟨c, _, heq | heq⟩
      · rw [heq]; exact ⟨hmem, hdisk, hs⟩
      · rw [heq]
        refine ⟨memShape_append s _ m c hmem, ?_, hs⟩
        intro l' hl'
        simp only [JsonState.mk.injEq] at hl'
        injection hl' with hl'
        rw [← hl']
        exact memShape_append s _ m c hmem
      · rw [heq]
        exact ⟨memShape_append s _ m c hmem, fun l' hl' => hdisk l' hl', hs⟩

theorem foldl_stepSql_tableShape (ops : List MgrOp) :
    ∀ st : SqlState, tableShape st.table → tableShape ((ops.foldl stepSql st).table) := by
  induction ops with
  | nil => intro st h; exact h
  | cons op ops ih => intro st h; exact ih _ (stepSql_tableShape st op h)

theorem foldl_stepJson_inv (s : String) (ops : List MgrOp) :
    ∀ st : JsonState, jsonInv s st → jsonInv s (ops.foldl stepJson st) := by
  induction ops with
  | nil => intro st h; exact h
  | cons op ops ih => intro st h; exact ih _ (stepJson_inv s st op h)

theorem runSql_tableShape (s : String) (ops : List MgrOp) :
    tableShape (runSql s ops).table :=
  foldl_stepSql_tableShape ops (initSql s) tableShape_nil

theorem runJson_inv (s : String) (ops : List MgrOp) : jsonInv s (runJson s ops) := by
  refine foldl_stepJson_inv s ops (initJson s) ⟨memShape_nil s, ?_, rfl⟩
  intro l hl
  simp [initJson] at hl

theorem goodTurns_cons (m c : String) (ts : List (String × String))
    (h : goodTurns ((m, c) :: ts) = true) :
    m ≠ "" ∧ c ≠ "" ∧ goodTurns ts = true := by
  by_cases h1 : m = ""
  · simp [goodTurns, h1] at h
  · by_cases h2 : c = ""
    · simp [goodTurns, h1, h2] at h
    · simp only [goodTurns, h1, h2, if_false] at h
      exact ⟨h1, h2, h⟩

theorem foldl_chatOps_sql (ts : List (String × String)) :
    ∀ st : SqlState, goodTurns ts = true →
      (chatOps ts).foldl stepSql st
        = SqlState.mk (st.table ++ flattenTurns ts) (st.mem ++ flattenTurns ts) st.smsg := by
  induction ts with
  | nil => intro st h; cases st; simp [chatOps, flattenTurns]
  | cons t ts ih =>
      obtain ⟨m, c⟩ := t
      intro st h
      obtain ⟨hm, hc, hts⟩ := goodTurns_cons m c ts h
      have hstep : stepSql st (MgrOp.chat m false (ProviderOutcome.content (some c)) true)
          = SqlState.mk (st.table ++ [Msg.mk Role.user m, Msg.mk Role.assistant c])
              (st.mem ++ [Msg.mk Role.user m, Msg.mk Role.assistant c]) st.smsg := by
        simp [stepSql, sql_chat, hm, hc]
      have hco : chatOps ((m, c) :: ts)
          = MgrOp.chat m false (ProviderOutcome.content (some c)) true :: chatOps ts := rfl
      rw [hco, List.foldl_cons, hstep, ih _ hts]
      simp [flattenTurns, List.append_assoc]

theorem foldl_chatOps_json (ts : List (String × String)) :
    ∀ st : JsonState, goodTurns ts = true →
      (chatOps ts).foldl stepJson st
        = JsonState.mk
            (if ts.isEmpty then st.disk
             else JsonDisk.stored (st.mem ++ flattenTurns ts))
            (st.mem ++ flattenTurns ts) st.smsg := by
  induction ts with
  | nil => intro st h; cases st; simp [chatOps, flattenTurns]
  | cons t ts ih =>
      obtain ⟨m, c⟩ := t
      intro st h
      obtain ⟨hm, hc, hts⟩ := goodTurns_cons m c ts h
      have hstep : stepJson st (MgrOp.chat m false (ProviderOutcome.content (some c)) true)
          = JsonState.mk
              (JsonDisk.stored (st.mem ++ [Msg.mk Role.user m, Msg.mk Role.assistant c]))
              (st.mem ++ [Msg.mk Role.user m, Msg.mk Role.assistant c]) st.smsg := by
        simp [stepJson, json_chat_fixed, hm]
      have hco : chatOps ((m, c) :: ts)
          = MgrOp.chat m false (ProviderOutcome.content (some c)) true :: chatOps ts := rfl
      rw [hco, List.foldl_cons, hstep, ih _ hts]
      cases ts with
      | nil => simp [flattenTurns]
      | cons u us => simp [flattenTurns, List.append_assoc]

/-- C1: the invariant "the system message is never persisted inside the
stored sequence" fails on the flat-JSON backend: `get_history` on an existing
chat log inserts the system message into `self.history` itself, so the next
successful non-amnesia `chat` (its body taken with the `smgs`/`smsg`
parameter typo resolved) rewrites the log file with the system message
persisted as its first element — and the provider request built from that
history contains the system message twice, confirming that the rest of the
code expects `self.history` to exclude it. -/
theorem json_backend_persists_system_message :
    (json_chat_fixed (json_get_history (JsonState.mk
        (JsonDisk.stored [Msg.mk Role.user "hi", Msg.mk Role.assistant "yo"]) [] "S")).2
      "more" false (ProviderOutcome.content (some "ok")) true).2.disk
      = JsonDisk.stored [Msg.mk Role.system "S", Msg.mk Role.user "hi",
          Msg.mk Role.assistant "yo", Msg.mk Role.user "more", Msg.mk Role.assistant "ok"]
    ∧ (json_request (json_get_history (JsonState.mk
        (JsonDisk.stored [Msg.mk Role.user "hi", Msg.mk Role.assistant "yo"]) [] "S")).2
        "S" "more").count (Msg.mk Role.system "S") = 2 := by
  exact ⟨by decide, by decide⟩

/-- C2 counterexample: in the relational backend, `get_history` on a table
holding one turn returns exactly the rows, with a user message — not the
system message — as the first element; and in the flat-JSON backend with no
persisted history, `get_history` yields the empty list, again without the
system message prepended. -/
theorem sql_load_does_not_prepend_system :
    (sql_get_history (SqlState.mk
        [Msg.mk Role.user "hi", Msg.mk Role.assistant "yo"] [] "S")).2.mem
      = [Msg.mk Role.user "hi", Msg.mk Role.assistant "yo"]
    ∧ ((sql_get_history (SqlState.mk
        [Msg.mk Role.user "hi", Msg.mk Role.assistant "yo"] [] "S")).2.mem.head?.map Msg.role)
      = some Role.user
    ∧ Role.user ≠ Role.system
    ∧ (json_get_history (initJson "S")).2.mem = [] := by
  exact ⟨by decide, by decide, by decide, by decide⟩

/-- C2 (amended): `get_history` returns exactly the persisted turns, with the
system message prepended only in the flat-JSON backend and only when a
history file exists; with no file it yields the empty list without a system
message, on malformed contents it returns `false` leaving the in-memory
history unchanged, and the relational backend returns exactly the table rows
with no system message ever prepended. -/
theorem get_history_load_behavior :
    (∀ (t mm : List Msg) (s : String),
        sql_get_history (SqlState.mk t mm s) = (true, SqlState.mk t t s))
    ∧ (∀ (l mm : List Msg) (s : String),
        json_get_history (JsonState.mk (JsonDisk.stored l) mm s)
          = (true, JsonState.mk (JsonDisk.stored l) (Msg.mk Role.system s :: l) s))
    ∧ (∀ (mm : List Msg) (s : String),
        json_get_history (JsonState.mk JsonDisk.absent mm s)
          = (true, JsonState.mk JsonDisk.absent [] s))
    ∧ (∀ (mm : List Msg) (s : String),
        json_get_history (JsonState.mk JsonDisk.malformed mm s)
          = (false, JsonState.mk JsonDisk.malformed mm s)) := by
  exact ⟨fun t mm s => rfl, fun l mm s => rfl, fun mm s => rfl, fun mm s => rfl⟩

/-- C3 counterexample: after the same single append-turn from the empty
state, a subsequent load yields different message lists in the two backends
(the flat-JSON backend prepends the system message, the relational backend
does not). -/
theorem backends_diverge_after_one_turn :
    (stepJson (runJson "S"
        [MgrOp.chat "hi" false (ProviderOutcome.content (some "yo")) true]) MgrOp.load).mem
      ≠ (stepSql (runSql "S"
        [MgrOp.chat "hi" false (ProviderOutcome.content (some "yo")) true]) MgrOp.load).mem := by
  decide

/-- C3 (amended): for every clear-free sequence of successful non-amnesia
append-turns applied from the empty state, the two backends agree up to the
system message: a load in the flat-JSON backend returns exactly the load of
the relational backend with the system message prepended (both empty when no
turn was appended); interleaving `clear` breaks the correspondence, because
the flat-JSON backend's next write re-persists pre-clear turns held in
memory. -/
theorem backends_agree_up_to_system_message (s : String) (ts : List (String × String))
    (h : goodTurns ts = true) :
    (stepJson (runJson s (chatOps ts)) MgrOp.load).mem
      = (if ts.isEmpty then []
         else Msg.mk Role.system s :: (stepSql (runSql s (chatOps ts)) MgrOp.load).mem) := by
  have hsql := foldl_chatOps_sql ts (initSql s) h
  have hjson := foldl_chatOps_json ts (initJson s) h
  have hrs : runSql s (chatOps ts) = SqlState.mk (flattenTurns ts) (flattenTurns ts) s := by
    simpa [runSql, initSql] using hsql
  have hrj : runJson s (chatOps ts)
      = JsonState.mk
          (if ts.isEmpty then JsonDisk.absent else JsonDisk.stored (flattenTurns ts))
          (flattenTurns ts) s := by
    simpa [runJson, initJson] using hjson
  rw [hrs, hrj]
  cases ts with
  | nil => rfl
  | cons t us => simp [stepJson, stepSql, json_get_history, sql_get_history]

/-- C3 witness: the amended claim at the single turn `("hi", "yo")` with
system message `"S"`. -/
theorem backends_agree_up_to_system_message_witness :
    goodTurns [("hi", "yo")] = true
    ∧ (stepJson (runJson "S" (chatOps [("hi", "yo")])) MgrOp.load).mem
        = (if ([("hi", "yo")] : List (String × String)).isEmpty then []
           else Msg.mk Role.system "S"
             :: (stepSql (runSql "S" (chatOps [("hi", "yo")])) MgrOp.load).mem) :=
  ⟨by decide, backends_agree_up_to_system_message "S" [("hi", "yo")] (by decide)⟩

/-- C4 counterexample: a provider failure inside `transcribe` is not caught
at the call site: the exception propagates to the caller instead of an empty
result being returned, and likewise for `speak`. -/
theorem transcribe_propagates_provider_error :
    sql_transcribe true (PyResult.exn PyErr.apiError) = PyResult.exn PyErr.apiError
    ∧ PyResult.exn PyErr.apiError ≠ PyResult.ok ""
    ∧ json_speak "hello" (some PyErr.apiError) = Sum.inl PyErr.apiError := by
  exact ⟨by decide, by decide, by decide⟩

/-- C4 (amended): failure handling degrades to an empty result only on some
paths — `chat` catches provider errors and returns `""`, `transcribe` on a
missing file returns `""`, `speak` on a blank message returns `False`, and
the flat-JSON `get_history` returns `False` on malformed stored state — but
a provider error raised inside `transcribe` or `speak` propagates to the
caller, and the flat-JSON `chat` itself propagates a `NameError` (the
`smgs`/`smsg` parameter typo) on every non-empty input. -/
theorem error_paths_behavior (stS : SqlState) (stJ : JsonState) (m : String)
    (e : PyErr) (a d : Bool) (p : ProviderOutcome) (mm : List Msg) (s : String)
    (hm : m ≠ "") :
    sql_chat stS m a (ProviderOutcome.raise e) d = (PyResult.ok "", stS)
    ∧ sql_transcribe false (PyResult.exn e) = PyResult.ok ""
    ∧ sql_transcribe true (PyResult.exn e) = PyResult.exn e
    ∧ json_speak m (some e) = Sum.inl e
    ∧ json_speak "" (some e) = Sum.inr false
    ∧ json_get_history (JsonState.mk JsonDisk.malformed mm s)
        = (false, JsonState.mk JsonDisk.malformed mm s)
    ∧ json_chat stJ m p = (PyResult.exn PyErr.nameError, stJ) := by
  refine ⟨?_, rfl, rfl, ?_, rfl, rfl, ?_⟩
  · simp [sql_chat, hm]
  · simp [json_speak, hm]
  · simp [json_chat, hm]

/-- C4 witness: the amended error-handling behavior at concrete states and
the message `"x"`. -/
theorem error_paths_behavior_witness :
    ("x" : String) ≠ ""
    ∧ (sql_chat (initSql "S") "x" false (ProviderOutcome.raise PyErr.apiError) true
          = (PyResult.ok "", initSql "S")
      ∧ sql_transcribe false (PyResult.exn PyErr.apiError) = PyResult.ok ""
      ∧ sql_transcribe true (PyResult.exn PyErr.apiError) = PyResult.exn PyErr.apiError
      ∧ json_speak "x" (some PyErr.apiError) = Sum.inl PyErr.apiError
      ∧ json_speak "" (some PyErr.apiError) = Sum.inr false
      ∧ json_get_history (JsonState.mk JsonDisk.malformed [] "S")
          = (false, JsonState.mk JsonDisk.malformed [] "S")
      ∧ json_chat (initJson "S") "x" (ProviderOutcome.content (some "ok"))
          = (PyResult.exn PyErr.nameError, initJson "S")) :=
  ⟨by decide, error_paths_behavior (initSql "S") (initJson "S") "x" PyErr.apiError
      false true (ProviderOutcome.content (some "ok")) [] "S" (by decide)⟩

/-- C5: append-turn is all-or-nothing per storage backend: one `chat` call
either leaves the persisted state unchanged or appends exactly the pair
[user message, assistant reply] (in the relational backend as two rows
committed together; in the flat-JSON backend as one whole-file rewrite of
the in-memory history), and consequently every persisted state reachable
from the empty state consists of complete turns — a user message is never
persisted without its assistant reply (in the flat-JSON file, after any
leading persisted system messages). -/
theorem append_turn_all_or_nothing :
    (∀ (st : SqlState) (m : String) (a : Bool) (p : ProviderOutcome) (d : Bool),
        (sql_chat st m a p d).2.table = st.table
        ∨ ∃ c, p = ProviderOutcome.content (some c)
            ∧ (sql_chat st m a p d).2.table
                = st.table ++ [Msg.mk Role.user m, Msg.mk Role.assistant c])
    ∧ (∀ (st : JsonState) (m : String) (a : Bool) (p : ProviderOutcome) (w : Bool),
        (json_chat_fixed st m a p w).2.disk = st.disk
        ∨ ∃ c, p = ProviderOutcome.content (some c)
            ∧ (json_chat_fixed st m a p w).2.disk
                = JsonDisk.stored (st.mem ++ [Msg.mk Role.user m, Msg.mk Role.assistant c]))
    ∧ (∀ (s : String) (ops : List MgrOp),
        isTurns (runSql s ops).table = true ∧ diskTurnsOk (runJson s ops).disk = true) := by
  refine ⟨sql_chat_table_cases, ?_, ?_⟩
  · intro st m a p w
    rcases json_chat_fixed_state_cases st m a p w with heq | ⟨c, hp, heq | heq⟩
    · left; rw [heq]
    · right; exact ⟨c, hp, by rw [heq]⟩
    · left; rw [heq]
  · intro s ops
    constructor
    · exact tableShape_isTurns _ (runSql_tableShape s ops)
    · obtain ⟨hmem, hdisk, hs⟩ := runJson_inv s ops
      cases hd : (runJson s ops).disk with
      | stored l => simpa [diskTurnsOk] using memShape_sysThenTurns s l (hdisk l hd)
      | absent => simp [diskTurnsOk]
      | malformed => simp [diskTurnsOk]

/-- C6: after `clear_history`, a subsequent load returns a conversation with
no persisted turns in both backends: the flat-JSON backend's log file is
removed (so the next `get_history` initialises an empty history), and the
relational backend's `history` table is emptied (so the next `get_history`
yields the empty list). -/
theorem clear_removes_all_persisted_turns :
    (∀ st : JsonState,
        (json_clear_history st).2.disk = JsonDisk.absent
        ∧ (json_get_history (json_clear_history st).2).2.mem = [])
    ∧ (∀ st : SqlState,
        (sql_clear_history st).2.table = []
        ∧ (sql_get_history (sql_clear_history st).2).2.mem = []) := by
  constructor
  · intro st
    obtain ⟨d, mm, s⟩ := st
    cases d with
    | absent => exact ⟨rfl, rfl⟩
    | malformed => exact ⟨rfl, rfl⟩
    | stored l => exact ⟨rfl, rfl⟩
  · intro st
    exact ⟨rfl, rfl⟩

/-- C7: ordering is insertion-ordered: running any sequence of successful
non-amnesia chat turns from the empty state appends, for each turn, the user
message and then the assistant reply at the end of the conversation, and a
subsequent load returns all the turns in exactly the order they were
appended (in the flat-JSON backend, after the re-attached system
message). -/
theorem chat_turns_appended_in_order (s : String) (ts : List (String × String))
    (h : goodTurns ts = true) :
    (runSql s (chatOps ts)).table = flattenTurns ts
    ∧ (stepSql (runSql s (chatOps ts)) MgrOp.load).mem = flattenTurns ts
    ∧ (runJson s (chatOps ts)).disk
        = (if ts.isEmpty then JsonDisk.absent else JsonDisk.stored (flattenTurns ts))
    ∧ (stepJson (runJson s (chatOps ts)) MgrOp.load).mem
        = (if ts.isEmpty then [] else Msg.mk Role.system s :: flattenTurns ts) := by
  have hsql := foldl_chatOps_sql ts (initSql s) h
  have hjson := foldl_chatOps_json ts (initJson s) h
  have hrs : runSql s (chatOps ts) = SqlState.mk (flattenTurns ts) (flattenTurns ts) s := by
    simpa [runSql, initSql] using hsql
  have hrj : runJson s (chatOps ts)
      = JsonState.mk
          (if ts.isEmpty then JsonDisk.absent else JsonDisk.stored (flattenTurns ts))
          (flattenTurns ts) s := by
    simpa [runJson, initJson] using hjson
  refine ⟨by rw [hrs], by rw [hrs]; rfl, by rw [hrj], ?_⟩
  rw [hrj]
  cases ts with
  | nil => rfl
  | cons t us => simp [stepJson, json_get_history]

/-- C7 witness: the ordering claim at the two-turn sequence
`[("hi", "yo"), ("how", "fine")]` with system message `"S"`. -/
theorem chat_turns_appended_in_order_witness :
    goodTurns [("hi", "yo"), ("how", "fine")] = true
    ∧ ((runSql "S" (chatOps [("hi", "yo"), ("how", "fine")])).table
          = flattenTurns [("hi", "yo"), ("how", "fine")]
      ∧ (stepSql (runSql "S" (chatOps [("hi", "yo"), ("how", "fine")])) MgrOp.load).mem
          = flattenTurns [("hi", "yo"), ("how", "fine")]
      ∧ (runJson "S" (chatOps [("hi", "yo"), ("how", "fine")])).disk
          = (if ([("hi", "yo"), ("how", "fine")] : List (String × String)).isEmpty
             then JsonDisk.absent
             else JsonDisk.stored (flattenTurns [("hi", "yo"), ("how", "fine")]))
      ∧ (stepJson (runJson "S" (chatOps [("hi", "yo"), ("how", "fine")])) MgrOp.load).mem
          = (if ([("hi", "yo"), ("how", "fine")] : List (String × String)).isEmpty
             then []
             else Msg.mk Role.system "S" :: flattenTurns [("hi", "yo"), ("how", "fine")])) :=
  ⟨by decide, chat_turns_appended_in_order "S" [("hi", "yo"), ("how", "fine")] (by decide)⟩

/-- C8: calling `chat` with `amnesia = True` changes nothing: whatever the
message, the provider outcome and the write availability, the in-memory
history, the persisted storage and the system message are exactly as before
the call, in both backends (in the flat-JSON backend both as literally
written — where the call raises `NameError` before any state change — and
with the `smgs`/`smsg` typo resolved). -/
theorem amnesia_chat_frame :
    (∀ (st : SqlState) (m : String) (p : ProviderOutcome) (d : Bool),
        (sql_chat st m true p d).2 = st)
    ∧ (∀ (st : JsonState) (m : String) (p : ProviderOutcome) (w : Bool),
        (json_chat_fixed st m true p w).2 = st)
    ∧ (∀ (st : JsonState) (m : String) (p : ProviderOutcome),
        (json_chat st m p).2 = st) := by
  refine ⟨?_, ?_, ?_⟩
  · intro st m p d
    unfold sql_chat
    by_cases hm : m = ""
    · simp [hm]
    · cases p with
      | raise e => simp [hm]
      | content c =>
          cases c with
          | none => simp [hm]
          | some c => by_cases hc : c = "" <;> simp [hm, hc]
  · intro st m p w
    unfold json_chat_fixed
    by_cases hm : m = ""
    · simp [hm]
    · cases p with
      | raise e => simp [hm]
      | content c => cases c with
        | none => simp [hm]
        | some c => simp [hm]
  · intro st m p
    unfold json_chat
    by_cases hm : m = "" <;> simp [hm]

/-- C9: `chat` with the empty message returns the empty string immediately:
the result does not depend on the provider outcome (the provider is never
consulted) and the state — in-memory history and persisted storage — is
returned unchanged, in both backends. -/
theorem empty_message_rejected_without_side_effects :
    (∀ (st : SqlState) (a : Bool) (p : ProviderOutcome) (d : Bool),
        sql_chat st "" a p d = (PyResult.ok "", st))
    ∧ (∀ (st : JsonState) (a : Bool) (p : ProviderOutcome) (w : Bool),
        json_chat_fixed st "" a p w = (PyResult.ok "", st))
    ∧ (∀ (st : JsonState) (p : ProviderOutcome),
        json_chat st "" p = (PyResult.ok "", st)) := by
  refine ⟨?_, ?_, ?_⟩
  · intro st a p d; simp [sql_chat]
  · intro st a p w; simp [json_chat_fixed]
  · intro st p; simp [json_chat]

/-- C10: in the relational backend, a completion whose content is `None` or
the empty string makes `chat` return the empty string with neither the
in-memory history nor the `history` table modified, whatever the message,
the amnesia flag and the database availability. -/
theorem empty_completion_not_recorded (st : SqlState) (m : String) (a : Bool) (d : Bool) :
    sql_chat st m a (ProviderOutcome.content none) d = (PyResult.ok "", st)
    ∧ sql_chat st m a (ProviderOutcome.content (some "")) d = (PyResult.ok "", st) := by
  constructor
  · unfold sql_chat
    by_cases hm : m = "" <;> simp [hm]
  · unfold sql_chat
    by_cases hm : m = "" <;> simp [hm]
